import Mathlib

/-!
Shallow embedding of the remote-tail-f program: the checkpoint store
(`TailerBase.LoadState` / `TailerBase.SaveState`), the HTTP range-request reader
(`HttpTailer.FetchNewLines`), the SFTP seek reader (`SftpTailer.FetchNewLines`), the line
extraction loop shared by both (`extractLines`), and the poll-loop controller from `main`
(`httpLoopCycle`, `sftpLoopCycle`, `mainStartup`). Bytes are modelled as `Char`, byte
buffers and file contents as `List Char`, `int64` offsets as `Int`, and the filesystem
interactions of one call as explicit inputs (`FileRead`, `HttpResp`, `SftpPoll`).
-/

namespace RemoteTailF

deriving instance DecidableEq for Except

/-- Model of `bytes.Index(body, []byte("\n"))`: index of the first newline byte, if any. -/
def idxOfNL : List Char → Option Nat
  | [] => none
  | c :: rest => if c = '\n' then some 0 else (idxOfNL rest).map (· + 1)

/-- Model of the line-splitting loop shared by both fetchers: repeatedly find the first
newline, emit the prefix before it as a line, and advance the consumed-byte count by the
newline position plus one; stop when no newline remains. Returns the emitted lines and the
total number of bytes consumed. -/
def extractLines (body : List Char) : List (List Char) × Nat :=
  match h : idxOfNL body with
  | none => ([], 0)
  | some i =>
    let r := extractLines (body.drop (i + 1))
    (body.take i :: r.1, (i + 1) + r.2)
termination_by body.length
decreasing_by
  cases body with
  | nil => simp [idxOfNL] at h
  | cons c rest =>
    simp
    omega

/-- Rejoining emitted lines with newline separators. -/
def joinNL (ls : List (List Char)) : List Char := ls.foldr (fun l acc => l ++ '\n' :: acc) []

/-- True when the byte is an ASCII decimal digit. -/
def isDigitB (c : Char) : Bool := decide (48 ≤ c.toNat ∧ c.toNat ≤ 57)

/-- Numeric value of an ASCII digit byte. -/
def digitVal (c : Char) : Nat := c.toNat - 48

/-- ASCII digit byte for a value below ten. -/
def digitChar (d : Nat) : Char := Char.ofNat (48 + d)

/-- Value of a digit string read left to right. -/
def digitsValNat (l : List Char) : Nat := l.foldl (fun a c => a * 10 + digitVal c) 0

/-- Decimal digits of a natural number, most significant first (the digits emitted by
`fmt.Sprintf("%d", n)` for a non-negative value). -/
def natDigits (n : Nat) : List Char :=
  if n < 10 then [digitChar n]
  else natDigits (n / 10) ++ [digitChar (n % 10)]
termination_by n
decreasing_by exact Nat.div_lt_self (by omega) (by omega)

/-- Model of `fmt.Sprintf("%d", i)` for `int64` values. -/
def intToDec (i : Int) : List Char :=
  if i < 0 then '-' :: natDigits i.natAbs else natDigits i.toNat

/-- Largest `int64` value. -/
def int64Max : Int := 9223372036854775807

/-- The space characters of Go's `fmt` scanner (the `space` table in fmt/scan.go): the
ASCII range 0x09-0x0D (tab, newline, vertical tab, form feed, carriage return), space,
NEL, NBSP, and the Unicode space ranges. -/
def isGoSpace (c : Char) : Bool :=
  decide ((9 ≤ c.toNat ∧ c.toNat ≤ 13) ∨ c.toNat = 32 ∨ c.toNat = 133 ∨ c.toNat = 160
    ∨ c.toNat = 5760 ∨ (8192 ≤ c.toNat ∧ c.toNat ≤ 8202) ∨ (8232 ≤ c.toNat ∧ c.toNat ≤ 8233)
    ∨ c.toNat = 8239 ∨ c.toNat = 8287 ∨ c.toNat = 12288)

/-- Model of `fmt.Sscanf(string(data), "%d", &x)` with `x` an `int64`: skips leading
`fmt` space characters other than newline (a lone carriage return, vertical tab, form
feed or Unicode space is skipped; a newline — also the one left after the scanner
consumes the `"\r"` of a `"\r\n"` pair — fails, since Sscanf requires newlines in the
input to match the format), then reads an optionally signed run of decimal digits;
digits must follow the sign immediately; any bytes after the digits are ignored; values
outside the `int64` range fail. Returns the parsed value or a scan error. -/
def goSscanfInt (data : List Char) : Except String Int :=
  match data.dropWhile (fun c => isGoSpace c && Bool.not (c == '\n')) with
  | [] => .error ("unexpected EOF")
  | c :: rest =>
    if c = '\n' then .error ("unexpected newline")
    else
      let s2 := if c = '-' ∨ c = '+' then rest else c :: rest
      let digits := s2.takeWhile isDigitB
      if digits.length = 0 then .error ("expected integer")
      else
        let m : Int := (digitsValNat digits : Int)
        if c = '-' then
          if int64Max + 1 < m then .error ("value out of range") else .ok (-m)
        else
          if int64Max < m then .error ("value out of range") else .ok m

/-- Whether the content begins (after Go's scanner space skipping and an optional sign,
and not counting a leading newline) with a decimal digit — the contents on which
`goSscanfInt` reads a number, subject only to the `int64` range check. -/
def startsWithIntB (data : List Char) : Bool :=
  match data.dropWhile (fun c => isGoSpace c && Bool.not (c == '\n')) with
  | [] => false
  | c :: rest =>
    if c = '\n' then false
    else
      match (if c = '-' ∨ c = '+' then rest else c :: rest) with
      | [] => false
      | d :: _ => isDigitB d

/-- Outcome of reading the checkpoint file from the filesystem. -/
inductive FileRead where
  | absent : FileRead
  | readErr : FileRead
  | content : List Char → FileRead
deriving DecidableEq, Repr

/-- State shared by both tailers (Go struct `TailerBase`): the checkpoint path and the
byte offset of the last fully consumed line. -/
structure TailerBase where
  stateFilePath : String
  lastOffset : Int
deriving DecidableEq, Repr

/-- Model of `TailerBase.LoadState`: an empty path or an absent file sets the offset to 0
with no error; an unreadable file, unparsable content, or a negative parsed value returns
an error leaving the receiver untouched; otherwise the parsed offset is stored. Returns
the updated receiver and the error, if any. -/
def TailerBase.LoadState (t : TailerBase) (fs : FileRead) : TailerBase × Option String :=
  if t.stateFilePath = "" then ({ t with lastOffset := 0 }, none)
  else
    match fs with
    | .absent => ({ t with lastOffset := 0 }, none)
    | .readErr => (t, some ("could not read checkpoint file"))
    | .content data =>
      match goSscanfInt data with
      | .error e => (t, some e)
      | .ok v =>
        if v < 0 then (t, some ("invalid offset in checkpoint file"))
        else ({ t with lastOffset := v }, none)

/-- Model of `TailerBase.SaveState`: with an empty path nothing is written; otherwise the
checkpoint file is overwritten with the decimal offset and a trailing newline. -/
def TailerBase.SaveState (t : TailerBase) (fs : FileRead) : FileRead :=
  if t.stateFilePath = "" then fs
  else .content (intToDec t.lastOffset ++ ['\n'])

/-- Go struct `HttpTailer`: the base state plus the URL, the request timeout and the
warn-once flag for servers without range support. -/
structure HttpTailer extends TailerBase where
  url : String
  requestTimeoutSec : Int
  rangeNotSupported : Bool
deriving DecidableEq, Repr

/-- Go constructor `NewHttpTailer`. -/
def NewHttpTailer (url : String) (requestTimeoutSec : Int) (stateFilePath : String) :
    HttpTailer :=
  { stateFilePath := stateFilePath, lastOffset := 0, url := url,
    requestTimeoutSec := requestTimeoutSec, rangeNotSupported := false }

/-- One HTTP poll as observed by `FetchNewLines`: either the request could not be built or
sent, or a response with the given status arrived and reading its body either failed or
yielded the given bytes. -/
inductive HttpResp where
  | netErr : HttpResp
  | resp : Nat → Except Unit (List Char) → HttpResp
deriving DecidableEq, Repr

/-- Result of one `HttpTailer.FetchNewLines` call: the updated receiver, whether the
range-not-supported warning was printed during this call, and the returned lines or
error. -/
structure HttpFetchResult where
  state : HttpTailer
  warned : Bool
  result : Except String (List (List Char))
deriving DecidableEq, Repr

/-- Tail portion of `HttpTailer.FetchNewLines` after the status handling: read the body
(which may fail), return no lines when the body is empty or no longer than `skipBytes`,
otherwise drop `skipBytes` leading bytes, split the rest into lines and advance the offset
by the consumed byte count. -/
def httpReadAndSplit (t : HttpTailer) (skipBytes : Int) (bodyE : Except Unit (List Char))
    (warned : Bool) : HttpFetchResult :=
  match bodyE with
  | .error _ => ⟨t, warned, .error ("read failed")⟩
  | .ok body =>
    if body.length = 0 then ⟨t, warned, .ok []⟩
    else if body.length ≤ skipBytes.toNat then ⟨t, warned, .ok []⟩
    else
      let e := extractLines (body.drop skipBytes.toNat)
      ⟨{ t with lastOffset := t.lastOffset + (e.2 : Int) }, warned, .ok e.1⟩

/-- Model of `HttpTailer.FetchNewLines`: status 416 resets the offset to 0 and returns no
lines and no error; statuses other than 200 and 206 fail; with a positive stored offset a
206 keeps one overlap byte (`skipBytes = 1`) while a 200 marks range requests unsupported,
printing the warning only the first time, and skips the whole already-seen prefix
(`skipBytes = lastOffset`); a 206 without a pending range request fails; then the body is
read and split into lines. -/
def HttpTailer.FetchNewLines (t : HttpTailer) (r : HttpResp) : HttpFetchResult :=
  match r with
  | .netErr => ⟨t, false, .error ("request failed")⟩
  | .resp status bodyE =>
    if status = 416 then
      ⟨{ t with lastOffset := 0 }, false, .ok []⟩
    else if status ≠ 200 ∧ status ≠ 206 then
      ⟨t, false, .error ("unexpected HTTP status")⟩
    else if 0 < t.lastOffset then
      if status = 206 then
        httpReadAndSplit t 1 bodyE false
      else
        httpReadAndSplit { t with rangeNotSupported := true } t.lastOffset bodyE
          (Bool.not t.rangeNotSupported)
    else if status = 206 then
      ⟨t, false, .error ("expected 200, got 206")⟩
    else
      httpReadAndSplit t 0 bodyE false

/-- Go struct `SftpTailer`: the base state plus connection parameters and the lazily
established session (`connected` models `client != nil`). -/
structure SftpTailer extends TailerBase where
  requestTimeoutSec : Int
  address : String
  username : String
  password : String
  filePath : String
  connected : Bool
deriving DecidableEq, Repr

/-- Go constructor `NewSftpTailer`. -/
def NewSftpTailer (address username password filePath : String) (requestTimeoutSec : Int)
    (stateFilePath : String) : SftpTailer :=
  { stateFilePath := stateFilePath, lastOffset := 0, requestTimeoutSec := requestTimeoutSec,
    address := address, username := username, password := password, filePath := filePath,
    connected := false }

/-- One SFTP poll as observed by `FetchNewLines`: whether dialing the server would
succeed, whether opening the remote file succeeds, the size reported by `Stat` (or a stat
failure), whether the seek succeeds, and the bytes returned by reading to end-of-file (or
a read failure). -/
structure SftpPoll where
  connectOk : Bool
  openOk : Bool
  statSize : Option Int
  seekOk : Bool
  readBody : Option (List Char)
deriving DecidableEq, Repr

/-- Result of one `SftpTailer.FetchNewLines` call. -/
structure SftpFetchResult where
  state : SftpTailer
  result : Except String (List (List Char))
deriving DecidableEq, Repr

/-- Model of `SftpTailer.FetchNewLines`: connect lazily when needed; any connect, open,
stat, seek or read failure tears the session down and returns an error. When the reported
size is below the stored offset the offset is reset to 0 (truncation); when the size then
equals the offset nothing new exists; otherwise the file is read from the offset to
end-of-file and split into lines, advancing the offset. -/
def SftpTailer.FetchNewLines (t : SftpTailer) (p : SftpPoll) : SftpFetchResult :=
  if t.connected = false ∧ p.connectOk = false then
    ⟨t, .error ("failed to connect")⟩
  else
    let t0 := { t with connected := true }
    if p.openOk = false then ⟨{ t0 with connected := false }, .error ("failed to open")⟩
    else
      match p.statSize with
      | none => ⟨{ t0 with connected := false }, .error ("failed to stat")⟩
      | some size =>
        let t1 := if size < t0.lastOffset then { t0 with lastOffset := 0 } else t0
        if size = t1.lastOffset then ⟨t1, .ok []⟩
        else if p.seekOk = false then
          ⟨{ t1 with connected := false }, .error ("failed to seek")⟩
        else
          match p.readBody with
          | none => ⟨{ t1 with connected := false }, .error ("failed to read")⟩
          | some body =>
            let e := extractLines body
            ⟨{ t1 with lastOffset := t1.lastOffset + (e.2 : Int) }, .ok e.1⟩

/-- One iteration of the poll loop in `main` for the HTTP tailer: fetch; on error only log
(the checkpoint is not saved and nothing is emitted); on success save the checkpoint and
emit the returned lines. An `Except.error code` would mean the process exits with that
code; the loop body contains no exit. -/
def httpLoopCycle (t : HttpTailer) (r : HttpResp) (fs : FileRead) :
    Except Nat (HttpTailer × FileRead × List (List Char)) :=
  let f := t.FetchNewLines r
  match f.result with
  | .error _ => .ok (f.state, fs, [])
  | .ok lines => .ok (f.state, f.state.toTailerBase.SaveState fs, lines)

/-- One iteration of the poll loop in `main` for the SFTP tailer. -/
def sftpLoopCycle (t : SftpTailer) (p : SftpPoll) (fs : FileRead) :
    Except Nat (SftpTailer × FileRead × List (List Char)) :=
  let f := t.FetchNewLines p
  match f.result with
  | .error _ => .ok (f.state, fs, [])
  | .ok lines => .ok (f.state, f.state.toTailerBase.SaveState fs, lines)

/-- Startup portion of `main`: if `CreateTailerFromArgs` failed the process exits with
code 1; otherwise the checkpoint is loaded and a load failure is only logged — the loop is
entered regardless, with the offset the failed load left behind. -/
def mainStartup (create : Option TailerBase) (fs : FileRead) : Except Nat TailerBase :=
  match create with
  | none => .error 1
  | some t => .ok (t.LoadState fs).1

/-- Number of times the range-not-supported warning is printed over a sequence of polls. -/
def httpRunWarns (t : HttpTailer) : List HttpResp → Nat
  | [] => 0
  | r :: rs =>
    let f := t.FetchNewLines r
    (if f.warned then 1 else 0) + httpRunWarns f.state rs

theorem idxOfNL_some_lt {l : List Char} {i : Nat} (h : idxOfNL l = some i) : i < l.length := by
  induction l generalizing i with
  | nil => simp [idxOfNL] at h
  | cons c rest ih =>
    by_cases hc : c = '\n'
    · simp [idxOfNL, hc] at h
      simp [← h]
    · simp [idxOfNL, hc] at h
      obtain ⟨j, hj, rfl⟩ := h
      have := ih hj
      simp
      omega

theorem joinNL_nil : joinNL [] = [] := rfl

theorem joinNL_cons (l : List Char) (ls : List (List Char)) :
    joinNL (l :: ls) = l ++ '\n' :: joinNL ls := rfl

theorem extractLines_of_none {body : List Char} (h : idxOfNL body = none) :
    extractLines body = ([], 0) := by
  rw [extractLines]
  split
  · rfl
  · rename_i i hi
    rw [h] at hi
    cases hi

theorem extractLines_of_some {body : List Char} {i : Nat} (h : idxOfNL body = some i) :
    extractLines body =
      ((body.take i) :: (extractLines (body.drop (i + 1))).1,
        (i + 1) + (extractLines (body.drop (i + 1))).2) := by
  rw [extractLines]
  split
  · rename_i hn
    rw [h] at hn
    cases hn
  · rename_i j hj
    rw [h] at hj
    have hj2 := Option.some.inj hj
    subst hj2
    rfl

theorem extractLines_nil : extractLines [] = ([], 0) :=
  extractLines_of_none rfl

theorem idxOfNL_none_not_mem {l : List Char} (h : idxOfNL l = none) : '\n' ∉ l := by
  induction l with
  | nil => simp
  | cons c rest ih =>
    by_cases hc : c = '\n'
    · simp [idxOfNL, hc] at h
    · simp [idxOfNL, hc] at h
      simp [hc, ih h]
      intro he
      exact hc he.symm

theorem idxOfNL_take_not_mem {l : List Char} {i : Nat} (h : idxOfNL l = some i) :
    '\n' ∉ l.take i := by
  induction l generalizing i with
  | nil => simp
  | cons c rest ih =>
    by_cases hc : c = '\n'
    · simp [idxOfNL, hc] at h
      simp [← h]
    · simp [idxOfNL, hc] at h
      obtain ⟨j, hj, rfl⟩ := h
      simp [hc, ih hj]
      intro he
      exact hc he.symm

theorem idxOfNL_split {l : List Char} {i : Nat} (h : idxOfNL l = some i) :
    l = l.take i ++ '\n' :: l.drop (i + 1) := by
  induction l generalizing i with
  | nil => simp [idxOfNL] at h
  | cons c rest ih =>
    by_cases hc : c = '\n'
    · simp [idxOfNL, hc] at h
      simp [← h, hc]
    · simp [idxOfNL, hc] at h
      obtain ⟨j, hj, rfl⟩ := h
      simpa using ih hj

theorem idxOfNL_append_some {l r : List Char} {i : Nat} (h : idxOfNL l = some i) :
    idxOfNL (l ++ r) = some i := by
  induction l generalizing i with
  | nil => simp [idxOfNL] at h
  | cons c rest ih =>
    by_cases hc : c = '\n'
    · simp [idxOfNL, hc] at h ⊢
      exact h
    · simp [idxOfNL, hc] at h ⊢
      obtain ⟨j, hj, rfl⟩ := h
      exact ⟨j, ih hj, rfl⟩

theorem extractLines_join (body : List Char) :
    joinNL (extractLines body).1 ++ body.drop (extractLines body).2 = body := by
  generalize hlen : body.length = n
  induction n using Nat.strong_induction_on generalizing body with
  | _ n ih =>
    cases h : idxOfNL body with
    | none => simp [extractLines_of_none h, joinNL_nil]
    | some i =>
      have hi : i < body.length := idxOfNL_some_lt h
      rw [extractLines_of_some h]
      have hdd : body.drop ((i + 1) + (extractLines (body.drop (i + 1))).2)
          = (body.drop (i + 1)).drop (extractLines (body.drop (i + 1))).2 := by
        rw [List.drop_drop]
      simp only [joinNL_cons, hdd, List.append_assoc, List.cons_append]
      have hrec := ih (body.drop (i + 1)).length (by rw [List.length_drop]; omega)
        (body.drop (i + 1)) rfl
      rw [hrec]
      exact (idxOfNL_split h).symm

theorem extractLines_le_length (body : List Char) :
    (extractLines body).2 ≤ body.length := by
  generalize hlen : body.length = n
  induction n using Nat.strong_induction_on generalizing body with
  | _ n ih =>
    cases h : idxOfNL body with
    | none => simp [extractLines_of_none h]
    | some i =>
      have hi : i < body.length := idxOfNL_some_lt h
      rw [extractLines_of_some h]
      have hrec := ih (body.drop (i + 1)).length (by rw [List.length_drop]; omega)
        (body.drop (i + 1)) rfl
      simp at hrec ⊢
      omega

theorem extractLines_lines_no_nl (body : List Char) :
    ∀ l ∈ (extractLines body).1, '\n' ∉ l := by
  generalize hlen : body.length = n
  induction n using Nat.strong_induction_on generalizing body with
  | _ n ih =>
    cases h : idxOfNL body with
    | none => simp [extractLines_of_none h]
    | some i =>
      have hi : i < body.length := idxOfNL_some_lt h
      rw [extractLines_of_some h]
      intro l hl
      rcases List.mem_cons.mp hl with rfl | hl'
      · exact idxOfNL_take_not_mem h
      · exact ih (body.drop (i + 1)).length (by rw [List.length_drop]; omega)
          (body.drop (i + 1)) rfl l hl'

theorem extractLines_rest_no_nl (body : List Char) :
    '\n' ∉ body.drop (extractLines body).2 := by
  generalize hlen : body.length = n
  induction n using Nat.strong_induction_on generalizing body with
  | _ n ih =>
    cases h : idxOfNL body with
    | none =>
      rw [extractLines_of_none h]
      simpa using idxOfNL_none_not_mem h
    | some i =>
      have hi : i < body.length := idxOfNL_some_lt h
      rw [extractLines_of_some h]
      have hdd : body.drop ((i + 1) + (extractLines (body.drop (i + 1))).2)
          = (body.drop (i + 1)).drop (extractLines (body.drop (i + 1))).2 := by
        rw [List.drop_drop]
      simp only [hdd]
      exact ih (body.drop (i + 1)).length (by rw [List.length_drop]; omega)
        (body.drop (i + 1)) rfl

theorem extractLines_append (buf ext : List Char) :
    extractLines (buf ++ ext) =
      ((extractLines buf).1 ++ (extractLines (buf.drop (extractLines buf).2 ++ ext)).1,
        (extractLines buf).2 + (extractLines (buf.drop (extractLines buf).2 ++ ext)).2) := by
  generalize hlen : buf.length = n
  induction n using Nat.strong_induction_on generalizing buf with
  | _ n ih =>
    cases h : idxOfNL buf with
    | none => simp [extractLines_of_none h]
    | some i =>
      have hi : i < buf.length := idxOfNL_some_lt h
      have hsome : idxOfNL (buf ++ ext) = some i := idxOfNL_append_some h
      rw [extractLines_of_some h, extractLines_of_some hsome]
      have htake : (buf ++ ext).take i = buf.take i := by
        rw [List.take_append_of_le_length (by omega)]
      have hdrop : (buf ++ ext).drop (i + 1) = buf.drop (i + 1) ++ ext := by
        rw [List.drop_append_of_le_length (by omega)]
      have hrec := ih (buf.drop (i + 1)).length (by rw [List.length_drop]; omega)
        (buf.drop (i + 1)) rfl
      rw [htake, hdrop, hrec]
      have hdd : buf.drop ((i + 1) + (extractLines (buf.drop (i + 1))).2)
          = (buf.drop (i + 1)).drop (extractLines (buf.drop (i + 1))).2 := by
        rw [List.drop_drop]
      rw [hdd]
      simp only [Prod.mk.injEq, List.cons_append]
      constructor
      · trivial
      · omega

theorem digitChar_toNat {d : Nat} (h : d < 10) : (digitChar d).toNat = 48 + d := by
  interval_cases d <;> decide

theorem isDigitB_digitChar {d : Nat} (h : d < 10) : isDigitB (digitChar d) = true := by
  interval_cases d <;> decide

theorem digitVal_digitChar {d : Nat} (h : d < 10) : digitVal (digitChar d) = d := by
  unfold digitVal
  rw [digitChar_toNat h]
  omega

theorem natDigits_ne_nil (n : Nat) : natDigits n ≠ [] := by
  rw [natDigits]
  split
  · simp
  · simp

theorem natDigits_all_digits (n : Nat) : ∀ c ∈ natDigits n, isDigitB c = true := by
  induction n using Nat.strong_induction_on with
  | _ n ih =>
    rw [natDigits]
    split
    · rename_i h
      simpa using isDigitB_digitChar h
    · rename_i h
      intro c hc
      rw [List.mem_append] at hc
      rcases hc with hc | hc
      · exact ih (n / 10) (Nat.div_lt_self (by omega) (by omega)) c hc
      · simp at hc
        subst hc
        exact isDigitB_digitChar (Nat.mod_lt _ (by omega))

theorem digitsValNat_foldl (n : Nat) : ∀ a : Nat,
    List.foldl (fun a c => a * 10 + digitVal c) a (natDigits n)
      = a * 10 ^ (natDigits n).length + n := by
  induction n using Nat.strong_induction_on with
  | _ n ih =>
    intro a
    rw [natDigits]
    split
    · rename_i h
      simp [digitVal_digitChar h]
    · rename_i h
      rw [List.foldl_append]
      rw [ih (n / 10) (Nat.div_lt_self (by omega) (by omega)) a]
      simp [digitVal_digitChar (Nat.mod_lt n (by omega))]
      rw [pow_succ, Nat.add_mul, ← Nat.mul_assoc]
      omega

theorem digitsValNat_natDigits (n : Nat) : digitsValNat (natDigits n) = n := by
  unfold digitsValNat
  rw [digitsValNat_foldl n 0]
  simp

theorem takeWhile_append_all {p : Char → Bool} {xs : List Char} {y : Char} {ys : List Char}
    (hxs : ∀ x ∈ xs, p x = true) (hy : p y = false) :
    List.takeWhile p (xs ++ y :: ys) = xs := by
  induction xs with
  | nil => simp [List.takeWhile_cons, hy]
  | cons x xs ih =>
    have hx : p x = true := hxs x (by simp)
    simp [List.takeWhile_cons, hx]
    exact ih (fun z hz => hxs z (by simp [hz]))

theorem isDigitB_ne (c : Char) (h : isDigitB c = true) :
    (isGoSpace c && Bool.not (c == '\n')) = false ∧ c ≠ '\n' ∧ c ≠ '-' ∧ c ≠ '+' := by
  have hrange : 48 ≤ c.toNat ∧ c.toNat ≤ 57 := by simpa [isDigitB] using h
  have hsp : isGoSpace c = false := by
    unfold isGoSpace
    exact decide_eq_false (by omega)
  refine ⟨by rw [hsp]; rfl, ?_, ?_, ?_⟩
  all_goals (intro he; subst he; exact absurd h (by decide))

theorem goSscanfInt_natDigits (n : Nat) (hn : (n : Int) ≤ int64Max) :
    goSscanfInt (natDigits n ++ ['\n']) = .ok (n : Int) := by
  obtain ⟨c, tl, hct⟩ : ∃ c tl, natDigits n = c :: tl := by
    cases hh : natDigits n with
    | nil => exact absurd hh (natDigits_ne_nil n)
    | cons c tl => exact ⟨c, tl, rfl⟩
  have hcd : isDigitB c = true := natDigits_all_digits n c (by simp [hct])
  have hne := isDigitB_ne c hcd
  have hdw : (natDigits n ++ ['\n']).dropWhile (fun c => isGoSpace c && Bool.not (c == '\n'))
      = c :: (tl ++ ['\n']) := by
    rw [hct]
    simp [List.dropWhile_cons, hne.1]
  have h2 : ¬ (c = '-' ∨ c = '+') := by
    rintro (rfl | rfl)
    · exact hne.2.2.1 rfl
    · exact hne.2.2.2 rfl
  have hc2 : c ≠ '-' := hne.2.2.1
  have hlist : c :: (tl ++ ['\n']) = natDigits n ++ ['\n'] := by
    rw [hct]
    simp
  have htw : List.takeWhile isDigitB (natDigits n ++ ['\n']) = natDigits n :=
    takeWhile_append_all (natDigits_all_digits n) (by decide)
  rw [goSscanfInt, hdw]
  simp only [if_neg hne.2.1, if_neg h2, hlist, htw, digitsValNat_natDigits]
  rw [if_neg (by simpa using natDigits_ne_nil n), if_neg hc2, if_neg (not_lt.mpr hn)]

theorem httpRS_readErr (t : HttpTailer) (skip : Int) (u : Unit) (w : Bool) :
    httpReadAndSplit t skip (.error u) w = ⟨t, w, .error ("read failed")⟩ := rfl

theorem httpRS_nil (t : HttpTailer) (skip : Int) (w : Bool) {body : List Char}
    (h : body.length = 0) :
    httpReadAndSplit t skip (.ok body) w = ⟨t, w, .ok []⟩ := by
  simp [httpReadAndSplit, h]

theorem httpRS_short (t : HttpTailer) (skip : Int) (w : Bool) {body : List Char}
    (h : body.length ≤ skip.toNat) :
    httpReadAndSplit t skip (.ok body) w = ⟨t, w, .ok []⟩ := by
  by_cases h0 : body.length = 0
  · exact httpRS_nil t skip w h0
  · simp [httpReadAndSplit, h0, h]

theorem httpRS_split (t : HttpTailer) (skip : Int) (w : Bool) {body : List Char}
    (h : skip.toNat < body.length) :
    httpReadAndSplit t skip (.ok body) w =
      ⟨{ t with lastOffset := t.lastOffset + ((extractLines (body.drop skip.toNat)).2 : Int) },
        w, .ok (extractLines (body.drop skip.toNat)).1⟩ := by
  have h0 : ¬ body.length = 0 := by omega
  have h1 : ¬ body.length ≤ skip.toNat := by omega
  simp [httpReadAndSplit, h0, h1]

theorem httpFNL_netErr (t : HttpTailer) :
    t.FetchNewLines .netErr = ⟨t, false, .error ("request failed")⟩ := rfl

theorem httpFNL_416 (t : HttpTailer) (bodyE : Except Unit (List Char)) :
    t.FetchNewLines (.resp 416 bodyE) = ⟨{ t with lastOffset := 0 }, false, .ok []⟩ := by
  simp [HttpTailer.FetchNewLines]

theorem httpFNL_badStatus (t : HttpTailer) (bodyE : Except Unit (List Char)) {status : Nat}
    (h416 : status ≠ 416) (h200 : status ≠ 200) (h206 : status ≠ 206) :
    t.FetchNewLines (.resp status bodyE) = ⟨t, false, .error ("unexpected HTTP status")⟩ := by
  simp [HttpTailer.FetchNewLines, h416, h200, h206]

theorem httpFNL_206_pos (t : HttpTailer) (bodyE : Except Unit (List Char))
    (hoff : 0 < t.lastOffset) :
    t.FetchNewLines (.resp 206 bodyE) = httpReadAndSplit t 1 bodyE false := by
  simp [HttpTailer.FetchNewLines, hoff]

theorem httpFNL_200_pos (t : HttpTailer) (bodyE : Except Unit (List Char))
    (hoff : 0 < t.lastOffset) :
    t.FetchNewLines (.resp 200 bodyE) =
      httpReadAndSplit { t with rangeNotSupported := true } t.lastOffset bodyE
        (Bool.not t.rangeNotSupported) := by
  simp [HttpTailer.FetchNewLines, hoff]

theorem httpFNL_206_zero (t : HttpTailer) (bodyE : Except Unit (List Char))
    (hoff : ¬ 0 < t.lastOffset) :
    t.FetchNewLines (.resp 206 bodyE) = ⟨t, false, .error ("expected 200, got 206")⟩ := by
  simp [HttpTailer.FetchNewLines, hoff]

theorem httpFNL_200_zero (t : HttpTailer) (bodyE : Except Unit (List Char))
    (hoff : ¬ 0 < t.lastOffset) :
    t.FetchNewLines (.resp 200 bodyE) = httpReadAndSplit t 0 bodyE false := by
  simp [HttpTailer.FetchNewLines, hoff]

theorem sftpFNL_connectFail (t : SftpTailer) (p : SftpPoll) (hc : t.connected = false)
    (hp : p.connectOk = false) :
    t.FetchNewLines p = ⟨t, .error ("failed to connect")⟩ := by
  simp [SftpTailer.FetchNewLines, hc, hp]

theorem sftpFNL_openFail (t : SftpTailer) (p : SftpPoll)
    (hc : ¬ (t.connected = false ∧ p.connectOk = false)) (ho : p.openOk = false) :
    t.FetchNewLines p = ⟨{ t with connected := false }, .error ("failed to open")⟩ := by
  simp [SftpTailer.FetchNewLines, hc, ho]

theorem sftpFNL_statFail (t : SftpTailer) (p : SftpPoll)
    (hc : ¬ (t.connected = false ∧ p.connectOk = false)) (ho : p.openOk = true)
    (hs : p.statSize = none) :
    t.FetchNewLines p = ⟨{ t with connected := false }, .error ("failed to stat")⟩ := by
  simp [SftpTailer.FetchNewLines, hc, ho, hs]

theorem sftpFNL_steady (t : SftpTailer) (p : SftpPoll) {size : Int}
    (hc : ¬ (t.connected = false ∧ p.connectOk = false)) (ho : p.openOk = true)
    (hs : p.statSize = some size) (htr : ¬ size < t.lastOffset) (heq : size = t.lastOffset) :
    t.FetchNewLines p = ⟨{ t with connected := true }, .ok []⟩ := by
  simp [SftpTailer.FetchNewLines, hc, ho, hs, htr, heq]

theorem sftpFNL_trunc_empty (t : SftpTailer) (p : SftpPoll) {size : Int}
    (hc : ¬ (t.connected = false ∧ p.connectOk = false)) (ho : p.openOk = true)
    (hs : p.statSize = some size) (htr : size < t.lastOffset) (h0 : size = 0) :
    t.FetchNewLines p = ⟨{ t with lastOffset := 0, connected := true }, .ok []⟩ := by
  subst h0
  simp [SftpTailer.FetchNewLines, hc, ho, hs, htr]

theorem sftpFNL_seekFail (t : SftpTailer) (p : SftpPoll) {size : Int}
    (hc : ¬ (t.connected = false ∧ p.connectOk = false)) (ho : p.openOk = true)
    (hs : p.statSize = some size) (htr : ¬ size < t.lastOffset) (hne : size ≠ t.lastOffset)
    (hk : p.seekOk = false) :
    t.FetchNewLines p = ⟨{ t with connected := false }, .error ("failed to seek")⟩ := by
  simp [SftpTailer.FetchNewLines, hc, ho, hs, htr, hne, hk]

theorem sftpFNL_seekFail_trunc (t : SftpTailer) (p : SftpPoll) {size : Int}
    (hc : ¬ (t.connected = false ∧ p.connectOk = false)) (ho : p.openOk = true)
    (hs : p.statSize = some size) (htr : size < t.lastOffset) (hne : size ≠ 0)
    (hk : p.seekOk = false) :
    t.FetchNewLines p =
      ⟨{ t with lastOffset := 0, connected := false }, .error ("failed to seek")⟩ := by
  simp [SftpTailer.FetchNewLines, hc, ho, hs, htr, hne, hk]

theorem sftpFNL_readFail (t : SftpTailer) (p : SftpPoll) {size : Int}
    (hc : ¬ (t.connected = false ∧ p.connectOk = false)) (ho : p.openOk = true)
    (hs : p.statSize = some size) (htr : ¬ size < t.lastOffset) (hne : size ≠ t.lastOffset)
    (hk : p.seekOk = true) (hr : p.readBody = none) :
    t.FetchNewLines p = ⟨{ t with connected := false }, .error ("failed to read")⟩ := by
  simp [SftpTailer.FetchNewLines, hc, ho, hs, htr, hne, hk, hr]

theorem sftpFNL_readFail_trunc (t : SftpTailer) (p : SftpPoll) {size : Int}
    (hc : ¬ (t.connected = false ∧ p.connectOk = false)) (ho : p.openOk = true)
    (hs : p.statSize = some size) (htr : size < t.lastOffset) (hne : size ≠ 0)
    (hk : p.seekOk = true) (hr : p.readBody = none) :
    t.FetchNewLines p =
      ⟨{ t with lastOffset := 0, connected := false }, .error ("failed to read")⟩ := by
  simp [SftpTailer.FetchNewLines, hc, ho, hs, htr, hne, hk, hr]

theorem sftpFNL_read (t : SftpTailer) (p : SftpPoll) {size : Int} {body : List Char}
    (hc : ¬ (t.connected = false ∧ p.connectOk = false)) (ho : p.openOk = true)
    (hs : p.statSize = some size) (htr : ¬ size < t.lastOffset) (hne : size ≠ t.lastOffset)
    (hk : p.seekOk = true) (hr : p.readBody = some body) :
    t.FetchNewLines p =
      ⟨{ t with lastOffset := t.lastOffset + ((extractLines body).2 : Int), connected := true },
        .ok (extractLines body).1⟩ := by
  simp [SftpTailer.FetchNewLines, hc, ho, hs, htr, hne, hk, hr]

theorem sftpFNL_read_trunc (t : SftpTailer) (p : SftpPoll) {size : Int} {body : List Char}
    (hc : ¬ (t.connected = false ∧ p.connectOk = false)) (ho : p.openOk = true)
    (hs : p.statSize = some size) (htr : size < t.lastOffset) (hne : size ≠ 0)
    (hk : p.seekOk = true) (hr : p.readBody = some body) :
    t.FetchNewLines p =
      ⟨{ t with lastOffset := ((extractLines body).2 : Int), connected := true },
        .ok (extractLines body).1⟩ := by
  simp [SftpTailer.FetchNewLines, hc, ho, hs, htr, hne, hk, hr]

theorem httpRS_offset_nonneg (t : HttpTailer) (skip : Int) (bodyE : Except Unit (List Char))
    (w : Bool) (h : 0 ≤ t.lastOffset) :
    0 ≤ (httpReadAndSplit t skip bodyE w).state.lastOffset := by
  cases bodyE with
  | error u => rw [httpRS_readErr]; exact h
  | ok body =>
    by_cases hlen : skip.toNat < body.length
    · rw [httpRS_split t skip w hlen]
      simp
      have h2 : (0 : Int) ≤ ((extractLines (body.drop skip.toNat)).2 : Int) :=
        Int.natCast_nonneg _
      omega
    · rw [httpRS_short t skip w (by omega)]
      exact h

theorem httpRS_error_state {t : HttpTailer} {skip : Int} {bodyE : Except Unit (List Char)}
    {w : Bool} {e : String} (h : (httpReadAndSplit t skip bodyE w).result = .error e) :
    (httpReadAndSplit t skip bodyE w).state = t := by
  cases bodyE with
  | error u => rw [httpRS_readErr]
  | ok body =>
    exfalso
    by_cases hlen : skip.toNat < body.length
    · rw [httpRS_split t skip w hlen] at h
      simp at h
    · rw [httpRS_short t skip w (by omega)] at h
      simp at h

theorem http_fetch_offset_nonneg (t : HttpTailer) (r : HttpResp) (h : 0 ≤ t.lastOffset) :
    0 ≤ (t.FetchNewLines r).state.lastOffset := by
  cases r with
  | netErr => rw [httpFNL_netErr]; exact h
  | resp status bodyE =>
    by_cases h416 : status = 416
    · subst h416
      rw [httpFNL_416]
    · by_cases h200 : status = 200
      · subst h200
        by_cases hoff : 0 < t.lastOffset
        · rw [httpFNL_200_pos t bodyE hoff]
          exact httpRS_offset_nonneg _ _ _ _ (by simpa using h)
        · rw [httpFNL_200_zero t bodyE hoff]
          exact httpRS_offset_nonneg _ _ _ _ h
      · by_cases h206 : status = 206
        · subst h206
          by_cases hoff : 0 < t.lastOffset
          · rw [httpFNL_206_pos t bodyE hoff]
            exact httpRS_offset_nonneg _ _ _ _ h
          · rw [httpFNL_206_zero t bodyE hoff]
            exact h
        · rw [httpFNL_badStatus t bodyE h416 h200 h206]
          exact h

theorem bool_not_false_of_ne {b : Bool} (h : ¬ b = false) : b = true := by
  cases b
  · exact absurd rfl h
  · rfl

theorem sftp_fetch_offset_nonneg (t : SftpTailer) (p : SftpPoll) (h : 0 ≤ t.lastOffset) :
    0 ≤ (t.FetchNewLines p).state.lastOffset := by
  by_cases hc : t.connected = false ∧ p.connectOk = false
  · rw [sftpFNL_connectFail t p hc.1 hc.2]
    exact h
  · by_cases ho : p.openOk = false
    · rw [sftpFNL_openFail t p hc ho]
      simpa using h
    · have ho2 : p.openOk = true := bool_not_false_of_ne ho
      cases hs : p.statSize with
      | none =>
        rw [sftpFNL_statFail t p hc ho2 hs]
        simpa using h
      | some size =>
        by_cases htr : size < t.lastOffset
        · by_cases h0 : size = 0
          · rw [sftpFNL_trunc_empty t p hc ho2 hs htr h0]
          · by_cases hk : p.seekOk = false
            · rw [sftpFNL_seekFail_trunc t p hc ho2 hs htr h0 hk]
            · have hk2 : p.seekOk = true := bool_not_false_of_ne hk
              cases hr : p.readBody with
              | none =>
                rw [sftpFNL_readFail_trunc t p hc ho2 hs htr h0 hk2 hr]
              | some body =>
                rw [sftpFNL_read_trunc t p hc ho2 hs htr h0 hk2 hr]
                simp
        · by_cases heq : size = t.lastOffset
          · rw [sftpFNL_steady t p hc ho2 hs htr heq]
            simpa using h
          · by_cases hk : p.seekOk = false
            · rw [sftpFNL_seekFail t p hc ho2 hs htr heq hk]
              simpa using h
            · have hk2 : p.seekOk = true := bool_not_false_of_ne hk
              cases hr : p.readBody with
              | none =>
                rw [sftpFNL_readFail t p hc ho2 hs htr heq hk2 hr]
                simpa using h
              | some body =>
                rw [sftpFNL_read t p hc ho2 hs htr heq hk2 hr]
                simp
                have h2 : (0 : Int) ≤ ((extractLines body).2 : Int) := Int.natCast_nonneg _
                omega

theorem load_offset_nonneg (t : TailerBase) (fs : FileRead) (h : 0 ≤ t.lastOffset) :
    0 ≤ (t.LoadState fs).1.lastOffset := by
  by_cases hp : t.stateFilePath = ""
  · simp [TailerBase.LoadState, hp]
  · cases fs with
    | absent => simp [TailerBase.LoadState, hp]
    | readErr =>
      simp [TailerBase.LoadState, hp]
      exact h
    | content data =>
      cases hg : goSscanfInt data with
      | error e2 =>
        simp [TailerBase.LoadState, hp, hg]
        exact h
      | ok v =>
        by_cases hv : v < 0
        · simp [TailerBase.LoadState, hp, hg, hv]
          exact h
        · simp [TailerBase.LoadState, hp, hg, hv]
          omega

/-- Claim C2: for every fetched buffer, the extraction step emits exactly the
newline-terminated prefixes as lines, in order, with the newline excluded; it counts
exactly the bytes up to and including the last newline into the offset advance, so the
bytes after the last newline are neither emitted nor counted; and extraction distributes
over appending the next poll's bytes, so a line split across two polls is emitted exactly
once, intact, only after its newline arrives. -/
theorem C2_extract_lines_spec :
    (∀ body : List Char,
        joinNL (extractLines body).1 ++ body.drop (extractLines body).2 = body)
    ∧ (∀ body : List Char, (extractLines body).2 ≤ body.length)
    ∧ (∀ body : List Char, ∀ l ∈ (extractLines body).1, '\n' ∉ l)
    ∧ (∀ body : List Char, '\n' ∉ body.drop (extractLines body).2)
    ∧ (∀ buf ext : List Char,
        extractLines (buf ++ ext) =
          ((extractLines buf).1 ++ (extractLines (buf.drop (extractLines buf).2 ++ ext)).1,
            (extractLines buf).2
              + (extractLines (buf.drop (extractLines buf).2 ++ ext)).2)) :=
  ⟨extractLines_join, extractLines_le_length, extractLines_lines_no_nl,
    extractLines_rest_no_nl, extractLines_append⟩

/-- Concrete instantiation of `C2_extract_lines_spec`: the first line extracted from
`"foo\nbar"` contains no newline. -/
theorem C2_extract_lines_spec_witness : '\n' ∉ (['f', 'o', 'o'] : List Char) :=
  C2_extract_lines_spec.2.2.1 ['f', 'o', 'o', '\n', 'b', 'a', 'r'] ['f', 'o', 'o']
    (by simp [extractLines, idxOfNL])

/-- Claim C10: whenever `LoadState` returns an error (unreadable file, unparsable
content, or negative stored value), the receiver — in particular its offset field — is
exactly as before the call; the offset is assigned only on the success paths. -/
theorem C10_load_error_leaves_state (t : TailerBase) (fs : FileRead) (e : String)
    (h : (t.LoadState fs).2 = some e) : (t.LoadState fs).1 = t := by
  by_cases hp : t.stateFilePath = ""
  · simp [TailerBase.LoadState, hp] at h
  · cases fs with
    | absent => simp [TailerBase.LoadState, hp] at h
    | readErr => simp [TailerBase.LoadState, hp]
    | content data =>
      cases hg : goSscanfInt data with
      | error e2 => simp [TailerBase.LoadState, hp, hg]
      | ok v =>
        by_cases hv : v < 0
        · simp [TailerBase.LoadState, hp, hg, hv]
        · simp [TailerBase.LoadState, hp, hg, hv] at h

/-- Concrete instantiation of `C10_load_error_leaves_state`: a read failure leaves the
stored offset 7 untouched. -/
theorem C10_load_error_leaves_state_witness :
    (TailerBase.LoadState ⟨"s", 7⟩ .readErr).1 = ⟨"s", 7⟩ :=
  C10_load_error_leaves_state ⟨"s", 7⟩ .readErr ("could not read checkpoint file") (by decide)

/-- Claim C9: the offset starts at 0 in both constructors and stays non-negative across
every operation: both fetchers and `LoadState` map a non-negative offset to a
non-negative offset (`SaveState` never writes the offset field). -/
theorem C9_offset_nonneg :
    (∀ url rto sp, (NewHttpTailer url rto sp).lastOffset = 0)
    ∧ (∀ a u pw fp rto sp, (NewSftpTailer a u pw fp rto sp).lastOffset = 0)
    ∧ (∀ (t : HttpTailer) (r : HttpResp), 0 ≤ t.lastOffset →
        0 ≤ (t.FetchNewLines r).state.lastOffset)
    ∧ (∀ (t : SftpTailer) (p : SftpPoll), 0 ≤ t.lastOffset →
        0 ≤ (t.FetchNewLines p).state.lastOffset)
    ∧ (∀ (t : TailerBase) (fs : FileRead), 0 ≤ t.lastOffset →
        0 ≤ (t.LoadState fs).1.lastOffset) :=
  ⟨fun _ _ _ => rfl, fun _ _ _ _ _ _ => rfl, http_fetch_offset_nonneg,
    sftp_fetch_offset_nonneg, load_offset_nonneg⟩

/-- Concrete instantiation of `C9_offset_nonneg`: fetching with a network error keeps the
offset of a fresh HTTP tailer non-negative. -/
theorem C9_offset_nonneg_witness :
    0 ≤ ((NewHttpTailer ("u") 5 ("s")).FetchNewLines .netErr).state.lastOffset :=
  C9_offset_nonneg.2.2.1 (NewHttpTailer ("u") 5 ("s")) .netErr (by decide)

theorem httpRS_warned (t : HttpTailer) (skip : Int) (bodyE : Except Unit (List Char))
    (w : Bool) : (httpReadAndSplit t skip bodyE w).warned = w := by
  cases bodyE with
  | error u => rfl
  | ok body =>
    by_cases hlen : skip.toNat < body.length
    · rw [httpRS_split t skip w hlen]
    · rw [httpRS_short t skip w (by omega)]

theorem httpRS_flag (t : HttpTailer) (skip : Int) (bodyE : Except Unit (List Char))
    (w : Bool) :
    (httpReadAndSplit t skip bodyE w).state.rangeNotSupported = t.rangeNotSupported := by
  cases bodyE with
  | error u => rfl
  | ok body =>
    by_cases hlen : skip.toNat < body.length
    · rw [httpRS_split t skip w hlen]
    · rw [httpRS_short t skip w (by omega)]

theorem http_fetch_flag_cases (t : HttpTailer) (r : HttpResp) :
    ((t.FetchNewLines r).warned = true → t.rangeNotSupported = false)
      ∧ (t.rangeNotSupported = true →
          (t.FetchNewLines r).state.rangeNotSupported = true
            ∧ (t.FetchNewLines r).warned = false)
      ∧ (t.rangeNotSupported = false → (t.FetchNewLines r).warned = false →
          (t.FetchNewLines r).state.rangeNotSupported = false)
      ∧ ((t.FetchNewLines r).warned = true →
          (t.FetchNewLines r).state.rangeNotSupported = true) := by
  cases r with
  | netErr =>
    rw [httpFNL_netErr]
    exact ⟨fun h => Bool.noConfusion h, fun h => ⟨h, rfl⟩, fun h _ => h,
      fun h => Bool.noConfusion h⟩
  | resp status bodyE =>
    by_cases h416 : status = 416
    · subst h416
      rw [httpFNL_416]
      exact ⟨fun h => Bool.noConfusion h, fun h => ⟨h, rfl⟩, fun h _ => h,
        fun h => Bool.noConfusion h⟩
    · by_cases h200 : status = 200
      · subst h200
        by_cases hoff : 0 < t.lastOffset
        · rw [httpFNL_200_pos t bodyE hoff]
          rw [httpRS_warned, httpRS_flag]
          refine ⟨?_, ?_, ?_, ?_⟩
          · intro h
            cases hfl : t.rangeNotSupported
            · rfl
            · rw [hfl] at h
              exact Bool.noConfusion h
          · intro h
            refine ⟨rfl, ?_⟩
            rw [h]
            rfl
          · intro h hw
            rw [h] at hw
            exact Bool.noConfusion hw
          · intro h
            rfl
        · rw [httpFNL_200_zero t bodyE hoff]
          rw [httpRS_warned, httpRS_flag]
          exact ⟨fun h => Bool.noConfusion h, fun h => ⟨h, rfl⟩, fun h _ => h,
            fun h => Bool.noConfusion h⟩
      · by_cases h206 : status = 206
        · subst h206
          by_cases hoff : 0 < t.lastOffset
          · rw [httpFNL_206_pos t bodyE hoff]
            rw [httpRS_warned, httpRS_flag]
            exact ⟨fun h => Bool.noConfusion h, fun h => ⟨h, rfl⟩, fun h _ => h,
              fun h => Bool.noConfusion h⟩
          · rw [httpFNL_206_zero t bodyE hoff]
            exact ⟨fun h => Bool.noConfusion h, fun h => ⟨h, rfl⟩, fun h _ => h,
              fun h => Bool.noConfusion h⟩
        · rw [httpFNL_badStatus t bodyE h416 h200 h206]
          exact ⟨fun h => Bool.noConfusion h, fun h => ⟨h, rfl⟩, fun h _ => h,
            fun h => Bool.noConfusion h⟩

theorem httpRunWarns_flag_true (rs : List HttpResp) : ∀ t : HttpTailer,
    t.rangeNotSupported = true → httpRunWarns t rs = 0 := by
  induction rs with
  | nil => intro t h; rfl
  | cons r rs ih =>
    intro t h
    have hc := http_fetch_flag_cases t r
    have hw : (t.FetchNewLines r).warned = false := (hc.2.1 h).2
    have hf : (t.FetchNewLines r).state.rangeNotSupported = true := (hc.2.1 h).1
    simp [httpRunWarns, hw, ih _ hf]

theorem httpRunWarns_le_one (rs : List HttpResp) : ∀ t : HttpTailer,
    t.rangeNotSupported = false → httpRunWarns t rs ≤ 1 := by
  induction rs with
  | nil => intro t h; simp [httpRunWarns]
  | cons r rs ih =>
    intro t h
    have hc := http_fetch_flag_cases t r
    cases hw : (t.FetchNewLines r).warned with
    | true =>
      have hf : (t.FetchNewLines r).state.rangeNotSupported = true := hc.2.2.2 hw
      simp [httpRunWarns, hw, httpRunWarns_flag_true rs _ hf]
    | false =>
      have hf : (t.FetchNewLines r).state.rangeNotSupported = false := hc.2.2.1 h hw
      simp [httpRunWarns, hw]
      exact ih _ hf

/-- Claim C3: with a stored offset above 0 and a 200 (full content) answer, the reader
discards exactly `lastOffset` leading bytes of the full body before line splitting
(`skipBytes = lastOffset`), marks range requests as unsupported, and prints the warning
exactly when it was not printed before; over any run of polls of one reader instance the
warning is printed at most once. -/
theorem C3_http_fallback_full_fetch :
    (∀ (t : HttpTailer) (body : List Char), 0 < t.lastOffset →
        (t.FetchNewLines (.resp 200 (.ok body))).result
            = .ok (extractLines (body.drop t.lastOffset.toNat)).1
          ∧ (t.FetchNewLines (.resp 200 (.ok body))).state.lastOffset
            = t.lastOffset + ((extractLines (body.drop t.lastOffset.toNat)).2 : Int)
          ∧ (t.FetchNewLines (.resp 200 (.ok body))).state.rangeNotSupported = true
          ∧ (t.FetchNewLines (.resp 200 (.ok body))).warned = Bool.not t.rangeNotSupported)
    ∧ (∀ (t : HttpTailer) (rs : List HttpResp), t.rangeNotSupported = false →
        httpRunWarns t rs ≤ 1)
    ∧ (∀ url rto sp rs, httpRunWarns (NewHttpTailer url rto sp) rs ≤ 1) := by
  refine ⟨?_, fun t rs h => httpRunWarns_le_one rs t h,
    fun url rto sp rs => httpRunWarns_le_one rs _ rfl⟩
  intro t body hoff
  rw [httpFNL_200_pos t _ hoff]
  by_cases hlen : t.lastOffset.toNat < body.length
  · rw [httpRS_split _ _ _ hlen]
    refine ⟨rfl, by simp, by simp, rfl⟩
  · rw [httpRS_short _ _ _ (by omega)]
    have hdrop : body.drop t.lastOffset.toNat = [] := List.drop_eq_nil_of_le (by omega)
    rw [hdrop, extractLines_nil]
    exact ⟨rfl, by simp, by simp, rfl⟩

/-- Concrete instantiation of `C3_http_fallback_full_fetch`: offset 2, flag not yet set,
status 200 with body `"abc\n"`. -/
theorem C3_http_fallback_full_fetch_witness :
    ((⟨⟨"s", 2⟩, "u", 5, false⟩ : HttpTailer).FetchNewLines
        (.resp 200 (.ok ['a', 'b', 'c', '\n']))).result
        = .ok (extractLines ((['a', 'b', 'c', '\n']).drop ((2 : Int)).toNat)).1
      ∧ ((⟨⟨"s", 2⟩, "u", 5, false⟩ : HttpTailer).FetchNewLines
        (.resp 200 (.ok ['a', 'b', 'c', '\n']))).state.lastOffset
        = 2 + ((extractLines ((['a', 'b', 'c', '\n']).drop ((2 : Int)).toNat)).2 : Int)
      ∧ ((⟨⟨"s", 2⟩, "u", 5, false⟩ : HttpTailer).FetchNewLines
        (.resp 200 (.ok ['a', 'b', 'c', '\n']))).state.rangeNotSupported = true
      ∧ ((⟨⟨"s", 2⟩, "u", 5, false⟩ : HttpTailer).FetchNewLines
        (.resp 200 (.ok ['a', 'b', 'c', '\n']))).warned = Bool.not false :=
  C3_http_fallback_full_fetch.1 ⟨⟨"s", 2⟩, "u", 5, false⟩ ['a', 'b', 'c', '\n'] (by decide)

/-- Claim C8: a fetch whose buffer is empty after accounting for `skipBytes` — an empty
body, a 200 body no longer than the stored offset, a 206 body no longer than the one
overlap byte, an SFTP file whose size equals the offset, or an SFTP read returning no
bytes — yields no lines, no error, and an unchanged offset. -/
theorem C8_empty_buffer_steady_state :
    (∀ (t : HttpTailer) (body : List Char),
        body.length ≤ (if 0 < t.lastOffset then t.lastOffset.toNat else 0) →
        (t.FetchNewLines (.resp 200 (.ok body))).result = .ok []
          ∧ (t.FetchNewLines (.resp 200 (.ok body))).state.lastOffset = t.lastOffset)
    ∧ (∀ (t : HttpTailer) (body : List Char), 0 < t.lastOffset → body.length ≤ 1 →
        (t.FetchNewLines (.resp 206 (.ok body))).result = .ok []
          ∧ (t.FetchNewLines (.resp 206 (.ok body))).state.lastOffset = t.lastOffset)
    ∧ (∀ (t : SftpTailer) (p : SftpPoll),
        ¬ (t.connected = false ∧ p.connectOk = false) → p.openOk = true →
        p.statSize = some t.lastOffset →
        (t.FetchNewLines p).result = .ok []
          ∧ (t.FetchNewLines p).state.lastOffset = t.lastOffset)
    ∧ (∀ (t : SftpTailer) (p : SftpPoll) (size : Int),
        ¬ (t.connected = false ∧ p.connectOk = false) → p.openOk = true →
        p.statSize = some size → t.lastOffset ≤ size → p.seekOk = true →
        p.readBody = some [] →
        (t.FetchNewLines p).result = .ok []
          ∧ (t.FetchNewLines p).state.lastOffset = t.lastOffset) := by
  refine ⟨?_, ?_, ?_, ?_⟩
  · intro t body hlen
    by_cases hoff : 0 < t.lastOffset
    · rw [if_pos hoff] at hlen
      rw [httpFNL_200_pos t _ hoff, httpRS_short _ _ _ hlen]
      exact ⟨rfl, by simp⟩
    · rw [if_neg hoff] at hlen
      rw [httpFNL_200_zero t _ hoff, httpRS_short _ _ _ (by simpa using hlen)]
      exact ⟨rfl, rfl⟩
  · intro t body hoff hlen
    rw [httpFNL_206_pos t _ hoff, httpRS_short _ _ _ (by simpa using hlen)]
    exact ⟨rfl, rfl⟩
  · intro t p hc ho hs
    rw [sftpFNL_steady t p hc ho hs (lt_irrefl _) rfl]
    exact ⟨rfl, by simp⟩
  · intro t p size hc ho hs hle hk hr
    by_cases heq : size = t.lastOffset
    · subst heq
      rw [sftpFNL_steady t p hc ho hs (lt_irrefl _) rfl]
      exact ⟨rfl, by simp⟩
    · have htr : ¬ size < t.lastOffset := by omega
      rw [sftpFNL_read t p hc ho hs htr heq hk hr]
      rw [extractLines_nil]
      exact ⟨rfl, by simp⟩

/-- Concrete instantiation of `C8_empty_buffer_steady_state`: an SFTP poll reporting the
stored size yields no lines and leaves the offset at 8. -/
theorem C8_empty_buffer_steady_state_witness :
    ((⟨⟨"s", 8⟩, 5, "a", "u", "p", "f", true⟩ : SftpTailer).FetchNewLines
        ⟨true, true, some 8, true, some []⟩).result = .ok []
      ∧ ((⟨⟨"s", 8⟩, 5, "a", "u", "p", "f", true⟩ : SftpTailer).FetchNewLines
        ⟨true, true, some 8, true, some []⟩).state.lastOffset = 8 :=
  C8_empty_buffer_steady_state.2.2.1 ⟨⟨"s", 8⟩, 5, "a", "u", "p", "f", true⟩
    ⟨true, true, some 8, true, some []⟩ (by decide) rfl rfl

theorem http_fetch_error_offset (t : HttpTailer) (r : HttpResp) (e : String)
    (h : (t.FetchNewLines r).result = .error e) :
    (t.FetchNewLines r).state.lastOffset = t.lastOffset := by
  cases r with
  | netErr => rw [httpFNL_netErr]
  | resp status bodyE =>
    by_cases h416 : status = 416
    · subst h416
      rw [httpFNL_416] at h
      exact absurd h (by simp)
    · by_cases h200 : status = 200
      · subst h200
        by_cases hoff : 0 < t.lastOffset
        · rw [httpFNL_200_pos t bodyE hoff] at h ⊢
          rw [httpRS_error_state h]
        · rw [httpFNL_200_zero t bodyE hoff] at h ⊢
          rw [httpRS_error_state h]
      · by_cases h206 : status = 206
        · subst h206
          by_cases hoff : 0 < t.lastOffset
          · rw [httpFNL_206_pos t bodyE hoff] at h ⊢
            rw [httpRS_error_state h]
          · rw [httpFNL_206_zero t bodyE hoff]
        · rw [httpFNL_badStatus t bodyE h416 h200 h206]

theorem sftp_fetch_error_offset_cond (t : SftpTailer) (p : SftpPoll) (e : String)
    (h : (t.FetchNewLines p).result = .error e) :
    ((¬ (t.connected = false ∧ p.connectOk = false) ∧ p.openOk = true
        ∧ ∃ size, p.statSize = some size ∧ size < t.lastOffset) →
      (t.FetchNewLines p).state.lastOffset = 0)
    ∧ (¬ (¬ (t.connected = false ∧ p.connectOk = false) ∧ p.openOk = true
        ∧ ∃ size, p.statSize = some size ∧ size < t.lastOffset) →
      (t.FetchNewLines p).state.lastOffset = t.lastOffset) := by
  by_cases hc : t.connected = false ∧ p.connectOk = false
  · rw [sftpFNL_connectFail t p hc.1 hc.2]
    exact ⟨fun hT => absurd hc hT.1, fun _ => rfl⟩
  · by_cases ho : p.openOk = false
    · rw [sftpFNL_openFail t p hc ho]
      refine ⟨fun hT => ?_, fun _ => rfl⟩
      have hcontra := hT.2.1
      rw [ho] at hcontra
      exact Bool.noConfusion hcontra
    · have ho2 : p.openOk = true := bool_not_false_of_ne ho
      cases hs : p.statSize with
      | none =>
        rw [sftpFNL_statFail t p hc ho2 hs]
        refine ⟨fun hT => ?_, fun _ => rfl⟩
        obtain ⟨size, hsz, _⟩ := hT.2.2
        cases hsz
      | some size =>
        by_cases htr : size < t.lastOffset
        · by_cases h0 : size = 0
          · rw [sftpFNL_trunc_empty t p hc ho2 hs htr h0] at h
            exact absurd h (by simp)
          · by_cases hk : p.seekOk = false
            · rw [sftpFNL_seekFail_trunc t p hc ho2 hs htr h0 hk]
              exact ⟨fun _ => rfl, fun hn => absurd ⟨hc, ho2, size, rfl, htr⟩ hn⟩
            · have hk2 : p.seekOk = true := bool_not_false_of_ne hk
              cases hr : p.readBody with
              | none =>
                rw [sftpFNL_readFail_trunc t p hc ho2 hs htr h0 hk2 hr]
                exact ⟨fun _ => rfl, fun hn => absurd ⟨hc, ho2, size, rfl, htr⟩ hn⟩
              | some body =>
                rw [sftpFNL_read_trunc t p hc ho2 hs htr h0 hk2 hr] at h
                exact absurd h (by simp)
        · by_cases heq : size = t.lastOffset
          · rw [sftpFNL_steady t p hc ho2 hs htr heq] at h
            exact absurd h (by simp)
          · by_cases hk : p.seekOk = false
            · rw [sftpFNL_seekFail t p hc ho2 hs htr heq hk]
              refine ⟨fun hT => ?_, fun _ => rfl⟩
              obtain ⟨size2, hsz2, hlt2⟩ := hT.2.2
              have hse := Option.some.inj hsz2
              rw [← hse] at hlt2
              exact absurd hlt2 htr
            · have hk2 : p.seekOk = true := bool_not_false_of_ne hk
              cases hr : p.readBody with
              | none =>
                rw [sftpFNL_readFail t p hc ho2 hs htr heq hk2 hr]
                refine ⟨fun hT => ?_, fun _ => rfl⟩
                obtain ⟨size2, hsz2, hlt2⟩ := hT.2.2
                have hse := Option.some.inj hsz2
                rw [← hse] at hlt2
                exact absurd hlt2 htr
              | some body =>
                rw [sftpFNL_read t p hc ho2 hs htr heq hk2 hr] at h
                exact absurd h (by simp)

/-- Counterexample to claim C5: an SFTP poll that observes a truncated size (5 below the
stored offset 10) and then fails at the seek returns an error, but the in-memory offset
has already been reset to 0 — it is not left unchanged at 10. -/
theorem C5_counterexample :
    ((⟨⟨"s", 10⟩, 5, "a", "u", "p", "f", true⟩ : SftpTailer).FetchNewLines
        ⟨true, true, some 5, false, none⟩).result = .error ("failed to seek")
      ∧ ((⟨⟨"s", 10⟩, 5, "a", "u", "p", "f", true⟩ : SftpTailer).FetchNewLines
        ⟨true, true, some 5, false, none⟩).state.lastOffset = 0
      ∧ (0 : Int) ≠ 10 := by
  refine ⟨?_, ?_, by decide⟩ <;>
    rw [sftpFNL_seekFail_trunc _ _ (by decide) rfl rfl (by decide) (by decide) rfl]

/-- Claim C5 as amended: when `FetchNewLines` returns an error the controller does not
persist the checkpoint and emits nothing; the HTTP offset is always unchanged on
error; and the SFTP offset is unchanged on every error except when the same
failing call had already detected truncation — it reached the stat and saw a size below
the stored offset — in which case the offset is 0. -/
theorem C5_error_no_persist :
    (∀ (t : HttpTailer) (r : HttpResp) (e : String),
        (t.FetchNewLines r).result = .error e →
        (t.FetchNewLines r).state.lastOffset = t.lastOffset)
    ∧ (∀ (t : HttpTailer) (r : HttpResp) (fs : FileRead) (e : String),
        (t.FetchNewLines r).result = .error e →
        httpLoopCycle t r fs = .ok ((t.FetchNewLines r).state, fs, []))
    ∧ (∀ (t : SftpTailer) (p : SftpPoll) (e : String),
        (t.FetchNewLines p).result = .error e →
        ((¬ (t.connected = false ∧ p.connectOk = false) ∧ p.openOk = true
            ∧ ∃ size, p.statSize = some size ∧ size < t.lastOffset) →
          (t.FetchNewLines p).state.lastOffset = 0)
        ∧ (¬ (¬ (t.connected = false ∧ p.connectOk = false) ∧ p.openOk = true
            ∧ ∃ size, p.statSize = some size ∧ size < t.lastOffset) →
          (t.FetchNewLines p).state.lastOffset = t.lastOffset))
    ∧ (∀ (t : SftpTailer) (p : SftpPoll) (fs : FileRead) (e : String),
        (t.FetchNewLines p).result = .error e →
        sftpLoopCycle t p fs = .ok ((t.FetchNewLines p).state, fs, [])) := by
  refine ⟨http_fetch_error_offset, ?_, sftp_fetch_error_offset_cond, ?_⟩
  · intro t r fs e h
    simp [httpLoopCycle, h]
  · intro t p fs e h
    simp [sftpLoopCycle, h]

/-- Concrete instantiation of `C5_error_no_persist`: a network error leaves the offset 9
unchanged. -/
theorem C5_error_no_persist_witness :
    ((⟨⟨"s", 9⟩, "u", 5, false⟩ : HttpTailer).FetchNewLines .netErr).state.lastOffset
      = (⟨⟨"s", 9⟩, "u", 5, false⟩ : HttpTailer).lastOffset :=
  C5_error_no_persist.1 ⟨⟨"s", 9⟩, "u", 5, false⟩ .netErr ("request failed") rfl

theorem intToDec_zero : intToDec 0 = ['0'] := by
  rw [intToDec, if_neg (by decide), natDigits, if_pos (by decide)]
  decide

/-- Counterexample to claim C1: an SFTP poll whose stat reports size 2 below the stored
offset 10 does not emit zero lines — after resetting the offset it reads the whole file
`"a\n"` in the same call, emits the line `"a"`, and leaves offset 2, which is what then
gets persisted. -/
theorem C1_counterexample :
    ((⟨⟨"s", 10⟩, 5, "a", "u", "p", "f", true⟩ : SftpTailer).FetchNewLines
        ⟨true, true, some 2, true, some ['a', '\n']⟩).result = .ok [['a']]
      ∧ ((⟨⟨"s", 10⟩, 5, "a", "u", "p", "f", true⟩ : SftpTailer).FetchNewLines
        ⟨true, true, some 2, true, some ['a', '\n']⟩).state.lastOffset = 2
      ∧ [['a']] ≠ ([] : List (List Char)) := by
  refine ⟨?_, ?_, by decide⟩ <;>
    rw [sftpFNL_read_trunc _ _ (by decide) rfl rfl (by decide) (by decide) rfl rfl] <;>
      simp [extractLines, idxOfNL]

/-- Claim C1 as amended: on HTTP status 416 the poll emits zero lines, returns no error,
resets the offset to 0 and the controller persists checkpoint content `"0\n"`. On SFTP,
a reported size below the stored offset resets the offset to 0 but the same call then
reads the file from the start: with size 0 it returns zero lines and offset 0, otherwise
it emits the new file's complete lines and leaves the offset at the bytes consumed from
the new file (0 only when no complete line was read). -/
theorem C1_truncation_reset :
    (∀ (t : HttpTailer) (bodyE : Except Unit (List Char)) (fs : FileRead),
        (t.FetchNewLines (.resp 416 bodyE)).result = .ok []
          ∧ (t.FetchNewLines (.resp 416 bodyE)).state.lastOffset = 0
          ∧ (t.stateFilePath ≠ "" →
              httpLoopCycle t (.resp 416 bodyE) fs
                = .ok ((t.FetchNewLines (.resp 416 bodyE)).state, .content ['0', '\n'], [])))
    ∧ (∀ (t : SftpTailer) (p : SftpPoll) (size : Int),
        ¬ (t.connected = false ∧ p.connectOk = false) → p.openOk = true →
        p.statSize = some size → size < t.lastOffset → size = 0 →
        (t.FetchNewLines p).result = .ok []
          ∧ (t.FetchNewLines p).state.lastOffset = 0)
    ∧ (∀ (t : SftpTailer) (p : SftpPoll) (size : Int) (body : List Char),
        ¬ (t.connected = false ∧ p.connectOk = false) → p.openOk = true →
        p.statSize = some size → size < t.lastOffset → size ≠ 0 →
        p.seekOk = true → p.readBody = some body →
        (t.FetchNewLines p).result = .ok (extractLines body).1
          ∧ (t.FetchNewLines p).state.lastOffset = ((extractLines body).2 : Int)) := by
  refine ⟨?_, ?_, ?_⟩
  · intro t bodyE fs
    refine ⟨by rw [httpFNL_416], by rw [httpFNL_416], ?_⟩
    intro hpath
    rw [httpFNL_416]
    simp [httpLoopCycle, httpFNL_416, TailerBase.SaveState, hpath, intToDec_zero]
  · intro t p size hc ho hs htr h0
    rw [sftpFNL_trunc_empty t p hc ho hs htr h0]
    exact ⟨rfl, rfl⟩
  · intro t p size body hc ho hs htr hne hk hr
    rw [sftpFNL_read_trunc t p hc ho hs htr hne hk hr]
    exact ⟨rfl, rfl⟩

/-- Concrete instantiation of `C1_truncation_reset`: truncation to a 3-byte file
`"x\n"`-plus-partial read in the same SFTP poll. -/
theorem C1_truncation_reset_witness :
    ((⟨⟨"s", 7⟩, 5, "a", "u", "p", "f", true⟩ : SftpTailer).FetchNewLines
        ⟨true, true, some 3, true, some ['x', '\n', 'y']⟩).result
        = .ok (extractLines ['x', '\n', 'y']).1
      ∧ ((⟨⟨"s", 7⟩, 5, "a", "u", "p", "f", true⟩ : SftpTailer).FetchNewLines
        ⟨true, true, some 3, true, some ['x', '\n', 'y']⟩).state.lastOffset
        = ((extractLines ['x', '\n', 'y']).2 : Int) :=
  C1_truncation_reset.2.2 ⟨⟨"s", 7⟩, 5, "a", "u", "p", "f", true⟩
    ⟨true, true, some 3, true, some ['x', '\n', 'y']⟩ 3 ['x', '\n', 'y']
    (by decide) rfl rfl (by decide) (by decide) rfl rfl

theorem goSscanfInt_neg5 : goSscanfInt ['-', '5'] = .ok (-5) := by decide

theorem goSscanfInt_neg5_nl : goSscanfInt ['-', '5', '\n'] = .ok (-5) := by decide

/-- Counterexample to claim C4: with the empty checkpoint path (checkpointing disabled),
`SaveState` writes nothing and `LoadState` always yields 0, so saving offset 5 and
loading it back gives 0, not 5. -/
theorem C4_counterexample :
    (TailerBase.LoadState ⟨"", 5⟩ (TailerBase.SaveState ⟨"", 5⟩ .absent)).1.lastOffset = 0
      ∧ (0 : Int) ≠ 5 := by
  refine ⟨?_, by decide⟩
  simp [TailerBase.LoadState, TailerBase.SaveState]

/-- Claim C4 as amended: for a non-empty checkpoint path and any non-negative `int64`
offset, `SaveState` followed by `LoadState` restores the identical offset with no error;
`LoadState` on an absent file returns offset 0 with no error; `LoadState` on a file
containing `"-5"` returns an invalid-checkpoint error leaving the receiver untouched;
with the empty path `SaveState` writes nothing and `LoadState` always returns offset 0. -/
theorem C4_checkpoint_roundtrip :
    (∀ (t : TailerBase) (fs : FileRead), t.stateFilePath ≠ "" →
        0 ≤ t.lastOffset → t.lastOffset ≤ int64Max →
        t.LoadState (t.SaveState fs) = (t, none))
    ∧ (∀ t : TailerBase, t.LoadState .absent = ({ t with lastOffset := 0 }, none))
    ∧ (∀ t : TailerBase, t.stateFilePath ≠ "" →
        t.LoadState (.content ['-', '5'])
          = (t, some ("invalid offset in checkpoint file")))
    ∧ (∀ (t : TailerBase) (fs : FileRead), t.stateFilePath = "" →
        t.SaveState fs = fs ∧ t.LoadState fs = ({ t with lastOffset := 0 }, none)) := by
  refine ⟨?_, ?_, ?_, ?_⟩
  · intro t fs hp h0 hmax
    have hsave : t.SaveState fs = .content (natDigits t.lastOffset.toNat ++ ['\n']) := by
      simp [TailerBase.SaveState, hp, intToDec, not_lt.mpr h0]
    have hparse : goSscanfInt (natDigits t.lastOffset.toNat ++ ['\n']) = .ok t.lastOffset := by
      rw [goSscanfInt_natDigits t.lastOffset.toNat (by rw [Int.toNat_of_nonneg h0]; exact hmax)]
      rw [Int.toNat_of_nonneg h0]
    rw [hsave]
    simp [TailerBase.LoadState, hp, hparse, not_lt.mpr h0]
  · intro t
    by_cases hp : t.stateFilePath = ""
    · simp [TailerBase.LoadState, hp]
    · simp [TailerBase.LoadState, hp]
  · intro t hp
    simp [TailerBase.LoadState, hp, goSscanfInt_neg5]
  · intro t fs hp
    exact ⟨by simp [TailerBase.SaveState, hp], by simp [TailerBase.LoadState, hp]⟩

/-- Concrete instantiation of `C4_checkpoint_roundtrip`: offset 5 with path `"s"` survives
the save/load round trip. -/
theorem C4_checkpoint_roundtrip_witness :
    TailerBase.LoadState ⟨"s", 5⟩ (TailerBase.SaveState ⟨"s", 5⟩ .absent)
      = (⟨"s", 5⟩, none) :=
  C4_checkpoint_roundtrip.1 ⟨"s", 5⟩ .absent (by decide) (by decide) (by decide)

/-- Counterexample to claim C6: a checkpoint file containing `"-5"` makes `LoadState`
fail with the invalid-offset error, yet `mainStartup` does not abort — it logs and enters
the loop with the prior offset. -/
theorem C6_counterexample :
    mainStartup (some ⟨"s", 0⟩) (.content ['-', '5', '\n']) = .ok ⟨"s", 0⟩
      ∧ ((⟨"s", 0⟩ : TailerBase).LoadState (.content ['-', '5', '\n'])).2
          = some ("invalid offset in checkpoint file") := by
  constructor
  · simp [mainStartup, TailerBase.LoadState, goSscanfInt_neg5_nl]
  · simp [TailerBase.LoadState, goSscanfInt_neg5_nl]

/-- Claim C6 as amended: only tailer-creation failure aborts the process (exit code 1);
a checkpoint-load failure at startup is logged and the loop is entered regardless; and no
loop iteration — whatever the transport outcome — exits the process. -/
theorem C6_startup_and_loop :
    (∀ fs : FileRead, mainStartup none fs = .error 1)
    ∧ (∀ (t : TailerBase) (fs : FileRead), ∃ t2, mainStartup (some t) fs = .ok t2)
    ∧ (∀ (t : HttpTailer) (r : HttpResp) (fs : FileRead),
        ∃ v, httpLoopCycle t r fs = .ok v)
    ∧ (∀ (t : SftpTailer) (p : SftpPoll) (fs : FileRead),
        ∃ v, sftpLoopCycle t p fs = .ok v) := by
  refine ⟨fun _ => rfl, fun t fs => ⟨(t.LoadState fs).1, rfl⟩, ?_, ?_⟩
  · intro t r fs
    cases hres : (t.FetchNewLines r).result with
    | error e =>
      exact ⟨((t.FetchNewLines r).state, fs, []), by simp [httpLoopCycle, hres]⟩
    | ok lines =>
      exact ⟨((t.FetchNewLines r).state,
        (t.FetchNewLines r).state.toTailerBase.SaveState fs, lines),
        by simp [httpLoopCycle, hres]⟩
  · intro t p fs
    cases hres : (t.FetchNewLines p).result with
    | error e =>
      exact ⟨((t.FetchNewLines p).state, fs, []), by simp [sftpLoopCycle, hres]⟩
    | ok lines =>
      exact ⟨((t.FetchNewLines p).state,
        (t.FetchNewLines p).state.toTailerBase.SaveState fs, lines),
        by simp [sftpLoopCycle, hres]⟩

theorem goSscanfInt_error_of_not_starts (data : List Char) (h : startsWithIntB data = false) :
    ∃ e, goSscanfInt data = .error e := by
  unfold startsWithIntB at h
  unfold goSscanfInt
  cases hdw : data.dropWhile (fun c => isGoSpace c && Bool.not (c == '\n')) with
  | nil => exact ⟨"unexpected EOF", rfl⟩
  | cons c rest =>
    rw [hdw] at h
    by_cases h1 : c = '\n'
    · simp only [if_pos h1]
      exact ⟨"unexpected newline", rfl⟩
    · simp only [if_neg h1] at h ⊢
      cases h2 : (if c = '-' ∨ c = '+' then rest else c :: rest) with
      | nil => exact ⟨"expected integer", rfl⟩
      | cons d ds =>
        rw [h2] at h
        have hd : isDigitB d = false := h
        exact ⟨"expected integer", by simp [List.takeWhile_cons, hd]⟩

theorem goSscanfInt_ok_or_range (data : List Char) (h : startsWithIntB data = true) :
    (∃ v, goSscanfInt data = .ok v)
      ∨ goSscanfInt data = .error ("value out of range") := by
  unfold startsWithIntB at h
  unfold goSscanfInt
  cases hdw : data.dropWhile (fun c => isGoSpace c && Bool.not (c == '\n')) with
  | nil =>
    rw [hdw] at h
    exact Bool.noConfusion h
  | cons c rest =>
    rw [hdw] at h
    by_cases h1 : c = '\n'
    · exact absurd h (by simp [h1])
    · simp only [if_neg h1] at h ⊢
      cases h2 : (if c = '-' ∨ c = '+' then rest else c :: rest) with
      | nil =>
        rw [h2] at h
        exact Bool.noConfusion h
      | cons d ds =>
        rw [h2] at h
        have hd : isDigitB d = true := h
        have hlen : ¬ (List.takeWhile isDigitB (d :: ds)).length = 0 := by
          simp [List.takeWhile_cons, hd]
        rw [if_neg hlen]
        by_cases hsign : c = '-'
        · rw [if_pos hsign]
          by_cases hr : int64Max + 1 < (digitsValNat (List.takeWhile isDigitB (d :: ds)) : Int)
          · rw [if_pos hr]
            exact Or.inr rfl
          · rw [if_neg hr]
            exact Or.inl ⟨_, rfl⟩
        · rw [if_neg hsign]
          by_cases hr : int64Max < (digitsValNat (List.takeWhile isDigitB (d :: ds)) : Int)
          · rw [if_pos hr]
            exact Or.inr rfl
          · rw [if_neg hr]
            exact Or.inl ⟨_, rfl⟩

/-- Counterexample to claim C7: the checkpoint content `"123abc"` has trailing non-numeric
bytes after the integer, yet `LoadState` accepts it and stores offset 123 with no error
(Go's `fmt.Sscanf` with `"%d"` ignores everything after the parsed integer). -/
theorem C7_counterexample :
    TailerBase.LoadState ⟨"s", 7⟩ (.content ['1', '2', '3', 'a', 'b', 'c'])
      = (⟨"s", 123⟩, none) := by decide

/-- Claim C7 as amended: `LoadState` fails exactly when the scan fails or the parsed
value is negative. Content that does not begin — after the scanner skips leading `fmt`
space characters other than newline, with a leading newline failing, and after an
optional sign — with a decimal digit makes the scan fail; a parsed magnitude outside
`int64` makes the scan fail with the range error; any scan error is returned by
`LoadState` with the receiver untouched, as is a parsed negative value. Trailing bytes
after the digits are ignored: every content whose prefix scans to a non-negative value
is accepted with exactly that offset, and those are the only contents `LoadState`
accepts. -/
theorem C7_checkpoint_parse :
    (∀ (t : TailerBase) (data : List Char), t.stateFilePath ≠ "" →
        startsWithIntB data = false →
        ∃ e, t.LoadState (.content data) = (t, some e))
    ∧ (∀ (t : TailerBase) (data : List Char) (v : Int), t.stateFilePath ≠ "" →
        goSscanfInt data = .ok v → v < 0 →
        t.LoadState (.content data) = (t, some ("invalid offset in checkpoint file")))
    ∧ (∀ (t : TailerBase) (data : List Char) (v : Int), t.stateFilePath ≠ "" →
        goSscanfInt data = .ok v → 0 ≤ v →
        t.LoadState (.content data) = ({ t with lastOffset := v }, none))
    ∧ (∀ (t : TailerBase) (data : List Char) (e : String), t.stateFilePath ≠ "" →
        goSscanfInt data = .error e →
        t.LoadState (.content data) = (t, some e))
    ∧ (∀ (t : TailerBase) (data : List Char), t.stateFilePath ≠ "" →
        (t.LoadState (.content data)).2 = none →
        ∃ v, goSscanfInt data = .ok v ∧ 0 ≤ v
          ∧ t.LoadState (.content data) = ({ t with lastOffset := v }, none))
    ∧ (∀ data : List Char, startsWithIntB data = true →
        (∃ v, goSscanfInt data = .ok v)
          ∨ goSscanfInt data = .error ("value out of range")) := by
  refine ⟨?_, ?_, ?_, ?_, ?_, goSscanfInt_ok_or_range⟩
  · intro t data hp hsw
    obtain ⟨e, he⟩ := goSscanfInt_error_of_not_starts data hsw
    exact ⟨e, by simp [TailerBase.LoadState, hp, he]⟩
  · intro t data v hp hg hv
    simp [TailerBase.LoadState, hp, hg, hv]
  · intro t data v hp hg hv
    simp [TailerBase.LoadState, hp, hg, not_lt.mpr hv]
  · intro t data e hp hg
    simp [TailerBase.LoadState, hp, hg]
  · intro t data hp hnone
    cases hg : goSscanfInt data with
    | error e => simp [TailerBase.LoadState, hp, hg] at hnone
    | ok v =>
      by_cases hv : v < 0
      · simp [TailerBase.LoadState, hp, hg, hv] at hnone
      · exact ⟨v, rfl, by omega, by simp [TailerBase.LoadState, hp, hg, hv]⟩

/-- Concrete instantiation of `C7_checkpoint_parse`: content `"x"` starts with no digit,
so loading fails. -/
theorem C7_checkpoint_parse_witness :
    ∃ e, TailerBase.LoadState ⟨"s", 3⟩ (.content ['x']) = (⟨"s", 3⟩, some e) :=
  C7_checkpoint_parse.1 ⟨"s", 3⟩ ['x'] (by decide) (by decide)

end RemoteTailF